import Mathlib

/-!
The `coredns-k8s-node` repository: the `k8s_node` CoreDNS plugin

A shallow embedding of `k8s_node.go`: the query path (`AddARecord`, `ServeDNS`),
the refresh path (`UpdateNodeList`), and a small-step model of the two paths
racing on the `sync.RWMutex` that guards the shared `hosts` map.

Conventions
* A Go `map[string]NodeAddr` is an association list with unique keys
  (`Hosts`); `Hosts.get`, `Hosts.set` and `Hosts.delete` are `m[k]`,
  `m[k] = v` and `delete(m, k)`.
* A `net.IP` is its list of bytes; the nil and the empty slice are both `[]`.
* Library functions whose behaviour the plugin relies on but whose code is not
  in the repository (`net.ParseIP`, `dns.Name.String`, the Kubernetes client)
  are fields of `Env`; the sample data instantiates `dns.Name.String` with
  `sprintName`, a model of the `miekg/dns` function.
* Calls to the logger are omitted: they have no effect on any value below.
* The effects of a call on its environment (the lock, the shared map, the
  response writer, the next plugin) are recorded, in program order, in a list
  of `Event`s returned next to the Go return values.
-/

namespace K8sNode

/-! ## Library types (`net`, `miekg/dns`, `coredns/request`, `coredns/plugin`) -/

/-- Byte slice of a `net.IP`. -/
abbrev IP := List Nat

/-- Go `net.IP.To4`: the 4-byte form of an address, `none` for Go's `nil`. -/
def To4 (ip : IP) : Option IP :=
  if ip.length = 4 then some ip
  else if ip.length = 16 ∧ (ip.take 10).all (fun b => b == 0) ∧
      ip.getD 10 0 = 0xff ∧ ip.getD 11 0 = 0xff then some (ip.drop 12)
  else none

/-- Go `net.IP.To16`: the 16-byte form of an address, `none` for Go's `nil`. -/
def To16 (ip : IP) : Option IP :=
  if ip.length = 4 then some ([0, 0, 0, 0, 0, 0, 0, 0, 0, 0, 0xff, 0xff] ++ ip)
  else if ip.length = 16 then some ip
  else none

/-- Go `dns.TypeA`. -/
def TypeA : Nat := 1
/-- Go `dns.TypeAAAA`. -/
def TypeAAAA : Nat := 28
/-- Go `dns.ClassINET`. -/
def ClassINET : Nat := 1
/-- Go `dns.RcodeSuccess`. -/
def RcodeSuccess : Int := 0
/-- Go `dns.RcodeServerFailure`. -/
def RcodeServerFailure : Int := 2
/-- Go `dns.OpcodeQuery`. -/
def OpcodeQuery : Nat := 0

/-- Go `dns.Question`. -/
structure Question where
  Name : String
  Qtype : Nat
  Qclass : Nat
deriving DecidableEq, Repr

/-- Go `dns.RR_Header` (the `Rdlength` field is left at its zero value by the plugin). -/
structure RR_Header where
  Name : String
  Rrtype : Nat
  Class : Nat
  Ttl : Nat
deriving DecidableEq, Repr

/-- The two `dns.RR` implementations the plugin builds: `*dns.A` and `*dns.AAAA`. -/
inductive RR where
  | A (Hdr : RR_Header) (A : IP)
  | AAAA (Hdr : RR_Header) (AAAA : IP)
deriving DecidableEq, Repr

/-- The fields of `dns.Msg` that `SetReply` and the plugin read or write. -/
structure Msg where
  Id : Nat
  Response : Bool
  Opcode : Nat
  Authoritative : Bool
  RecursionDesired : Bool
  RecursionAvailable : Bool
  CheckingDisabled : Bool
  Rcode : Int
  Question : List Question
  Answer : List RR
deriving DecidableEq, Repr

/-- Go `new(dns.Msg)`: every field at its zero value. -/
def Msg.new : Msg :=
  { Id := 0, Response := false, Opcode := 0, Authoritative := false,
    RecursionDesired := false, RecursionAvailable := false, CheckingDisabled := false,
    Rcode := 0, Question := [], Answer := [] }

/-- Go `(*dns.Msg).SetReply`. -/
def Msg.SetReply (m request : Msg) : Msg :=
  let m := { m with Id := request.Id, Response := true, Opcode := request.Opcode }
  let m := if m.Opcode = OpcodeQuery then
      { m with RecursionDesired := request.RecursionDesired,
               CheckingDisabled := request.CheckingDisabled }
    else m
  let m := { m with Rcode := RcodeSuccess }
  match request.Question with
  | q :: _ => { m with Question := [q] }
  | [] => m

/-- Go `strings.ToLower` on the printable-ASCII strings `dns.Name.String` yields:
`A`..`Z` become `a`..`z`, every other character is kept. -/
def ToLower (s : String) : String := ⟨s.data.map Char.toLower⟩

/-- Go `strings.HasSuffix`. -/
def HasSuffix (s suffix : String) : Bool := suffix.data.isSuffixOf s.data

/-- Go `v1.NodeHostName`. -/
def NodeHostName : String := "Hostname"
/-- Go `v1.NodeInternalIP`. -/
def NodeInternalIP : String := "InternalIP"

/-- Go `v1.NodeAddress` (its field `Type` is spelled `Type_`). -/
structure NodeAddress where
  Type_ : String
  Address : String
deriving DecidableEq, Repr

/-- Go `v1.Node`, reduced to the one field the plugin reads, `Status.Addresses`. -/
structure Node where
  Addresses : List NodeAddress
deriving DecidableEq, Repr

/-- What the plugin gets from outside the repository: the three client calls
the refresh makes in order (each may fail with an error text); `net.ParseIP`,
which returns the nil slice `[]` for a text that is no address; and
`dns.Name.String`, which renders a question name in presentation form,
escaping the characters that are special in a zone file and the bytes that
are not printable. -/
structure Env where
  BuildConfigFromFlags : String → Except String Unit
  NewForConfig : Except String Unit
  NodesList : Except String (List Node)
  ParseIP : String → IP
  NameString : String → String

/-! ### `dns.Name.String` as `miekg/dns` implements it (`sprintName`)

Bytes are numbers; a name is read as its UTF-8 bytes. -/

/-- Go `isDomainNameLabelSpecial`: the bytes `.`, space, apostrophe, `@`, `;`, `(`, `)`,
double quote and backslash. -/
def isDomainNameLabelSpecial (b : Nat) : Bool :=
  b = 46 || b = 32 || b = 39 || b = 64 || b = 59 || b = 40 || b = 41 || b = 34 || b = 92

/-- Go `isDigit`. -/
def isDigit (b : Nat) : Bool := decide (48 ≤ b) && decide (b ≤ 57)

/-- Go `dddToByte`: the byte written as three decimal digits. -/
def dddToByte (a b c : Nat) : Nat := ((a - 48) * 100 + (b - 48) * 10 + (c - 48)) % 256

/-- Go `nextByte` on the rest of the name: the byte the next token stands for and
the number of bytes the token takes, 0 for a backslash at the very end. -/
def nextByte : List Nat → Nat × Nat
  | [] => (0, 0)
  | c :: rest =>
    if c ≠ 92 then (c, 1)
    else
      match rest with
      | [] => (0, 0)
      | d1 :: d2 :: d3 :: _ =>
        if isDigit d1 && isDigit d2 && isDigit d3 then (dddToByte d1 d2 d3, 4) else (d1, 2)
      | d1 :: _ => (d1, 2)

/-- Go `escapeByte`: a backslash and the three decimal digits of the byte. -/
def escapeByte (b : Nat) : List Nat := [92, 48 + b / 100, 48 + b / 10 % 10, 48 + b % 10]

/-- Loop of Go `sprintName` over the rest of the name: a dot is kept, a special
byte gets a backslash, a byte that is not printable is written as `\DDD`, any
other token is kept as it is written, and a backslash at the very end is
dropped. `fuel` bounds the number of tokens. -/
def sprintBytes : Nat → List Nat → List Nat
  | 0, _ => []
  | _, [] => []
  | fuel + 1, c :: rest =>
    if c = 46 then 46 :: sprintBytes fuel rest
    else
      let (b, n) := nextByte (c :: rest)
      if n = 0 then []
      else if isDomainNameLabelSpecial b then 92 :: b :: sprintBytes fuel ((c :: rest).drop n)
      else if b < 32 ∨ 126 < b then escapeByte b ++ sprintBytes fuel ((c :: rest).drop n)
      else (c :: rest).take n ++ sprintBytes fuel ((c :: rest).drop n)

/-- UTF-8 bytes of a string. -/
def bytesOf (s : String) : List Nat :=
  s.data.flatMap (fun c => (String.utf8EncodeChar c).map UInt8.toNat)

/-- Go `sprintName`, the body of `dns.Name.String`. -/
def sprintName (s : String) : String :=
  String.mk ((sprintBytes (bytesOf s).length (bytesOf s)).map Char.ofNat)

/-- Go `request.Request.QName`: the name of the first question as
`dns.Name.String` renders it; the root zone for a request without a question. -/
def Request.QName (env : Env) (r : Msg) : String :=
  match r.Question with
  | [] => "."
  | q :: _ => env.NameString q.Name

/-- Go `request.Request.Name`: the name of the first question as
`dns.Name.String` renders it, lower-cased by `strings.ToLower`; the root zone
for a request without a question. -/
def Request.Name (env : Env) (r : Msg) : String :=
  match r.Question with
  | [] => "."
  | q :: _ => ToLower (env.NameString q.Name)

/-- Go `request.Request.QType`: the type of the first question, 0 without one. -/
def Request.QType (r : Msg) : Nat :=
  match r.Question with
  | [] => 0
  | q :: _ => q.Qtype

/-- What a `plugin.Handler` returns from `ServeDNS`: a result code and an error. -/
structure Result where
  rcode : Int
  err : Option String
deriving DecidableEq, Repr

/-- The next `plugin.Handler` of the chain, seen through its return values. -/
abbrev Handler := Msg → Result

/-! ## The plugin's data -/

/-- Go `NodeAddr`. -/
structure NodeAddr where
  Address : IP
  Ipv6 : Bool
deriving DecidableEq, Repr

/-- The shared `map[string]NodeAddr`. -/
abbrev Hosts := List (String × NodeAddr)

/-- Map read `m[k]` with its presence flag. -/
def Hosts.get (m : Hosts) (k : String) : Option NodeAddr :=
  match m with
  | [] => none
  | (n, a) :: rest => if n = k then some a else Hosts.get rest k

/-- Builtin `delete(m, k)`. -/
def Hosts.delete (m : Hosts) (k : String) : Hosts :=
  m.filter (fun e => decide (e.1 ≠ k))

/-- Map write `m[k] = v`. -/
def Hosts.set (m : Hosts) (k : String) (v : NodeAddr) : Hosts :=
  (k, v) :: Hosts.delete m k

/-- Keys of the map, as `range` visits them. -/
def Hosts.keys (m : Hosts) : List String := m.map Prod.fst

/-- Go `K8SNode` without its two pointers: the lock and the map they point to are
shared state, passed explicitly. -/
structure K8SNode where
  Next : Option Handler
  Domain : String
  kubeconfig : String

/-- Effects of the plugin on its environment, in program order. -/
inductive Event where
  | Lock
  | Unlock
  | RLock
  | RUnlock
  | MapRead (key : String)
  | WriteMsg (msg : Msg)
  | CallNext
deriving DecidableEq, Repr

/-- Return values of `ServeDNS` together with the effects it had. -/
structure Outcome where
  trace : List Event
  rcode : Int
  err : Option String
deriving DecidableEq, Repr

/-- Go `K8SNode.Name`. -/
def K8SNode.Name (_k : K8SNode) : String := "k8s_node"

/-- Go `plugin.NextOrFailure`: the next handler's answer, or a server failure with
the error `plugin/<name>: no next plugin found` when the chain ends here. -/
def NextOrFailure (name : String) (next : Option Handler) (r : Msg) : List Event × Result :=
  match next with
  | some h => ([Event.CallNext], h r)
  | none => ([], { rcode := RcodeServerFailure,
                   err := some ("plugin/" ++ name ++ ": no next plugin found") })

/-! ## The query path -/

/-- Go `K8SNode.AddARecord`: appends the record for `name`, when the map has one,
to `msg.Answer`; the boolean tells whether it did. -/
def K8SNode.AddARecord (_k : K8SNode) (msg : Msg) (hosts : Hosts) (name : String) :
    Msg × Bool :=
  match hosts.get name with
  | some answer =>
    if answer.Ipv6 then
      let aaaaheader : RR_Header :=
        { Name := name, Rrtype := TypeAAAA, Class := ClassINET, Ttl := 60 }
      ({ msg with Answer := msg.Answer ++ [RR.AAAA aaaaheader answer.Address] }, true)
    else
      let aheader : RR_Header :=
        { Name := name, Rrtype := TypeA, Class := ClassINET, Ttl := 60 }
      ({ msg with Answer := msg.Answer ++ [RR.A aheader answer.Address] }, true)
  | none => (msg, false)

/-- Go `K8SNode.ServeDNS`. The deferred `RUnlock` runs after the return values
are computed, hence after the call of `NextOrFailure` on the last path. -/
def K8SNode.ServeDNS (k : K8SNode) (env : Env) (hosts : Hosts) (r : Msg) : Outcome :=
  let msg := Msg.new.SetReply r
  let msg := { msg with Authoritative := true }
  let msg := { msg with RecursionAvailable := true }
  if !HasSuffix (Request.QName env r) (k.Domain ++ ".") then
    let (ev, res) := NextOrFailure k.Name k.Next r
    { trace := ev, rcode := res.rcode, err := res.err }
  else if Request.QType r ≠ TypeA ∧ Request.QType r ≠ TypeAAAA then
    let (ev, res) := NextOrFailure k.Name k.Next r
    { trace := ev, rcode := res.rcode, err := res.err }
  else
    let msg := { msg with Answer := [] }
    let (msg, added) := k.AddARecord msg hosts (Request.Name env r)
    if added then
      { trace := [Event.RLock, Event.MapRead (Request.Name env r), Event.WriteMsg msg, Event.RUnlock],
        rcode := RcodeSuccess, err := none }
    else
      let (ev, res) := NextOrFailure k.Name k.Next r
      { trace := [Event.RLock, Event.MapRead (Request.Name env r)] ++ ev ++ [Event.RUnlock],
        rcode := res.rcode, err := res.err }

/-! ## The refresh path -/

/-- Go `strings.Split(s, ".")` on the characters of `s`; `cur` holds the
characters of the field being read, last one first. -/
def splitDots : List Char → List Char → List String
  | [], cur => [String.mk cur.reverse]
  | c :: cs, cur =>
    if c = '.' then String.mk cur.reverse :: splitDots cs []
    else splitDots cs (c :: cur)

/-- Go `strings.Split(s, ".")`. -/
def Split (s : String) : List String := splitDots s.data []

/-- Inner loop of `UpdateNodeList` over `n.Status.Addresses`, started from
`name := ""` and `addr := net.IP{}`. -/
def scanAddresses (env : Env) (k : K8SNode) (as : List NodeAddress) : String × IP :=
  as.foldl (fun (acc : String × IP) a =>
    let name := if a.Type_ = NodeHostName then
        (Split a.Address).headD "" ++ "." ++ k.Domain ++ "."
      else acc.1
    let addr := if a.Type_ = NodeInternalIP then env.ParseIP a.Address else acc.2
    (name, addr)) ("", [])

/-- Body of the outer loop of `UpdateNodeList` for one node: the key and the
record written by `hosts[name] = NodeAddr{Address: addr, Ipv6: ipv6}`. -/
def nodeEntry (env : Env) (k : K8SNode) (n : Node) : String × NodeAddr :=
  let (name, addr) := scanAddresses env k n.Addresses
  let ipv6 := true
  let check := To4 addr
  let ipv6 := if check ≠ none then false else ipv6
  (name, { Address := addr, Ipv6 := ipv6 })

/-- Outer loop of `UpdateNodeList`: the local map `hosts` after `nodes.Items`. -/
def buildHosts (env : Env) (k : K8SNode) (items : List Node) : Hosts :=
  items.foldl (fun hosts n => hosts.set (nodeEntry env k n).1 (nodeEntry env k n).2) []

/-- The loop `for h := range m { delete(m, h) }`, over the keys still to visit. -/
def clearLoop (todo : List String) (m : Hosts) : Hosts :=
  todo.foldl Hosts.delete m

/-- The loop `for name, addr := range hosts { m[name] = addr }`, over the
entries still to visit. -/
def copyLoop (todo : Hosts) (m : Hosts) : Hosts :=
  todo.foldl (fun m e => m.set e.1 e.2) m

/-- Critical section of `UpdateNodeList`: the shared map after it was cleared
and refilled from the local map `built`. -/
def install (built shared : Hosts) : Hosts :=
  copyLoop built (clearLoop shared.keys shared)

/-- Go `K8SNode.UpdateNodeList`: the shared map after the call, and the lock
operations of the call. -/
def K8SNode.UpdateNodeList (env : Env) (k : K8SNode) (shared : Hosts) :
    Hosts × List Event :=
  match env.BuildConfigFromFlags k.kubeconfig with
  | .error _ => (shared, [])
  | .ok _ =>
    match env.NewForConfig with
    | .error _ => (shared, [])
    | .ok _ =>
      match env.NodesList with
      | .error _ => (shared, [])
      | .ok items =>
        let hosts := buildHosts env k items
        (install hosts shared, [Event.Lock, Event.Unlock])

/-! ## Lock discipline of one call -/

/-- Scans a trace with the number of read locks the call holds and tells
whether the next plugin is called while that number is positive. -/
def heldAtNext (held : Nat) : List Event → Bool
  | [] => false
  | Event.RLock :: t => heldAtNext (held + 1) t
  | Event.RUnlock :: t => heldAtNext (held - 1) t
  | Event.CallNext :: t => decide (0 < held) || heldAtNext held t
  | _ :: t => heldAtNext held t

/-- Whether an event touches the shared map or its lock. -/
def Event.touchesTable : Event → Bool
  | Event.Lock => true
  | Event.Unlock => true
  | Event.RLock => true
  | Event.RUnlock => true
  | Event.MapRead _ => true
  | _ => false

/-- Whether an event writes a reply to the client. -/
def Event.isWrite : Event → Bool
  | Event.WriteMsg _ => true
  | _ => false

/-! ## Lookups racing one refresh

One step of the machine is one lock operation, one map read or one map write
of a goroutine. The machine is given the entries of the refresh's local map in
the order its `range` loop visits them, which Go leaves open; the order in
which the shared map is cleared is the order of its list. `sync.RWMutex` is its writer flag and its reader count:
`Lock` is taken when there is neither writer nor reader, `RLock` when there is
no writer. (Go also holds new readers back while a writer waits; leaving that
out only adds interleavings.) -/

/-- Program counter of the goroutine in `UpdateNodeList`, once the local map
is built. -/
inductive WriterPc where
  | building
  | clearing (todo : List String)
  | copying (todo : Hosts)
  | done
deriving DecidableEq, Repr

/-- Program counter of a goroutine in `ServeDNS` on the path that reaches the
table; `obs` is the whole table as it was when the goroutine read it. -/
inductive ReaderPc where
  | start
  | locked
  | looked (obs : Hosts)
  | done (obs : Hosts)
deriving DecidableEq, Repr

/-- State of a `sync.RWMutex`. -/
structure RWMutex where
  writer : Bool
  readers : Nat
deriving DecidableEq, Repr

/-- The shared state and every goroutine's program counter. -/
structure Sys where
  mutex : RWMutex
  hosts : Hosts
  writer : WriterPc
  readers : List ReaderPc
deriving DecidableEq, Repr

/-- Which goroutine takes the next step. -/
inductive Action where
  | writer
  | reader (i : Nat)
deriving DecidableEq, Repr

/-- Whether a reader holds the read lock. -/
def ReaderPc.holding : ReaderPc → Bool
  | ReaderPc.locked => true
  | ReaderPc.looked _ => true
  | _ => false

/-- The table a reader has seen, if it has read it. -/
def ReaderPc.observed : ReaderPc → Option Hosts
  | ReaderPc.looked obs => some obs
  | ReaderPc.done obs => some obs
  | _ => none

/-- One step of the writer; `none` when it is blocked or has returned. -/
def stepWriter (built : Hosts) (s : Sys) : Option Sys :=
  match s.writer with
  | WriterPc.building =>
    if s.mutex.writer = false ∧ s.mutex.readers = 0 then
      some { s with mutex := { s.mutex with writer := true },
                    writer := WriterPc.clearing s.hosts.keys }
    else none
  | WriterPc.clearing (h :: todo) =>
    some { s with hosts := s.hosts.delete h, writer := WriterPc.clearing todo }
  | WriterPc.clearing [] => some { s with writer := WriterPc.copying built }
  | WriterPc.copying (e :: todo) =>
    some { s with hosts := s.hosts.set e.1 e.2, writer := WriterPc.copying todo }
  | WriterPc.copying [] =>
    some { s with mutex := { s.mutex with writer := false }, writer := WriterPc.done }
  | WriterPc.done => none

/-- One step of reader `i`; `none` when it is blocked, has returned or does
not exist. -/
def stepReader (i : Nat) (s : Sys) : Option Sys :=
  match s.readers.get? i with
  | some ReaderPc.start =>
    if s.mutex.writer = false then
      some { s with mutex := { s.mutex with readers := s.mutex.readers + 1 },
                    readers := s.readers.set i ReaderPc.locked }
    else none
  | some ReaderPc.locked =>
    some { s with readers := s.readers.set i (ReaderPc.looked s.hosts) }
  | some (ReaderPc.looked obs) =>
    some { s with mutex := { s.mutex with readers := s.mutex.readers - 1 },
                  readers := s.readers.set i (ReaderPc.done obs) }
  | some (ReaderPc.done _) => none
  | none => none

/-- One step of the machine. -/
def step (built : Hosts) (s : Sys) : Action → Option Sys
  | Action.writer => stepWriter built s
  | Action.reader i => stepReader i s

/-- Runs a schedule; `none` when it asks a goroutine that cannot move. -/
def run (built : Hosts) (s : Sys) : List Action → Option Sys
  | [] => some s
  | a :: rest =>
    match step built s a with
    | some t => run built t rest
    | none => none

/-- Start of the race: the table holds the previous generation, the lock is
free, the refresh has built its local map, `n` lookups are about to start. -/
def Sys.init (old : Hosts) (n : Nat) : Sys :=
  { mutex := { writer := false, readers := 0 }, hosts := old,
    writer := WriterPc.building, readers := List.replicate n ReaderPc.start }

/-! ## Predicates used to state the results -/

/-- Whether a node has an address of type `Hostname`. -/
def Node.hasHostName (n : Node) : Bool :=
  n.Addresses.any (fun a => decide (a.Type_ = NodeHostName))

/-- Whether a node has an address of type `InternalIP`. -/
def Node.hasInternalIP (n : Node) : Bool :=
  n.Addresses.any (fun a => decide (a.Type_ = NodeInternalIP))

/-- Last address of a node with the given type, as the inner loop sees it. -/
def Node.lastOfType (n : Node) (t : String) : Option NodeAddress :=
  n.Addresses.reverse.find? (fun a => decide (a.Type_ = t))

/-- First dot-separated label of a host name: the name up to its first dot. -/
def firstLabel (h : String) : String :=
  String.mk (h.data.takeWhile (fun c => decide (c ≠ '.')))

/-- An IPv4 address: one with a 4-byte form. -/
def IsIPv4 (ip : IP) : Bool := (To4 ip).isSome

/-- An IPv6 address: one with a 16-byte form and no 4-byte form. -/
def IsIPv6 (ip : IP) : Bool := (To16 ip).isSome && (To4 ip).isNone

/-- What the writer's program counter says about the table and the lock: before
`Lock` the table is the previous generation, inside the critical section the
loops still to run lead to the new generation, after `Unlock` the table is the
new generation. -/
def WriterPc.agrees (old built : Hosts) (s : Sys) : WriterPc → Prop
  | WriterPc.building => s.hosts = old ∧ s.mutex.writer = false
  | WriterPc.clearing todo =>
    s.mutex.writer = true ∧ copyLoop built (clearLoop todo s.hosts) = install built old
  | WriterPc.copying todo =>
    s.mutex.writer = true ∧ copyLoop todo s.hosts = install built old
  | WriterPc.done => s.hosts = install built old ∧ s.mutex.writer = false

/-- Invariant of the race between the lookups and the refresh. -/
def Sys.Inv (old built : Hosts) (s : Sys) : Prop :=
  s.writer.agrees old built s ∧
    s.mutex.readers = s.readers.countP ReaderPc.holding ∧
    (s.mutex.writer = true → s.mutex.readers = 0) ∧
    ∀ pc ∈ s.readers, ∀ obs, pc.observed = some obs → obs = old ∨ obs = install built old

/-! ## Sample data -/

/-- A next plugin that refuses every query (`dns.RcodeRefused`). -/
def refusing : Handler := fun _ => { rcode := 5, err := none }

/-- The plugin set up for the zone `cluster.local`, followed by `refusing`. -/
def sampleNode : K8SNode :=
  { Next := some refusing, Domain := "cluster.local",
    kubeconfig := "/var/lib/kubelet/kubeconfig" }

/-- The plugin set up for the zone `Cluster.Local`, followed by `refusing`. -/
def capitalZoneNode : K8SNode :=
  { Next := some refusing, Domain := "Cluster.Local",
    kubeconfig := "/var/lib/kubelet/kubeconfig" }

/-- A query for one name and type, class `IN`. -/
def query (name : String) (qtype : Nat) : Msg :=
  { Msg.new with Id := 7, RecursionDesired := true,
                 Question := [{ Name := name, Qtype := qtype, Qclass := ClassINET }] }

/-- The 16-byte form `net.ParseIP` returns for `10.0.0.5`. -/
def ip10_0_0_5 : IP := [0, 0, 0, 0, 0, 0, 0, 0, 0, 0, 0xff, 0xff, 10, 0, 0, 5]

/-- The 16 bytes of `fd00::5`. -/
def ipfd00__5 : IP := [0xfd, 0, 0, 0, 0, 0, 0, 0, 0, 0, 0, 0, 0, 0, 0, 5]

/-- An inventory source that lists `items`, with `net.ParseIP` tabulated on
the two addresses used below and `dns.Name.String` as `sprintName`. -/
def sampleEnv (items : List Node) : Env :=
  { BuildConfigFromFlags := fun _ => .ok (),
    NewForConfig := .ok (),
    NodesList := .ok items,
    ParseIP := fun s =>
      if s = "10.0.0.5" then ip10_0_0_5 else if s = "fd00::5" then ipfd00__5 else [],
    NameString := sprintName }

/-- An inventory source whose node listing fails. -/
def failingEnv : Env :=
  { BuildConfigFromFlags := fun _ => .ok (),
    NewForConfig := .ok (),
    NodesList := .error "connection refused",
    ParseIP := fun _ => [],
    NameString := sprintName }

/-- A node with a host name and an internal address. -/
def node (hostname address : String) : Node :=
  { Addresses := [{ Type_ := NodeInternalIP, Address := address },
                  { Type_ := NodeHostName, Address := hostname }] }

/-! ## Facts about the map operations -/

theorem Hosts.get_delete (m : Hosts) (k n : String) :
    (m.delete k).get n = if n = k then none else m.get n := by
  induction m with
  | nil => simp [Hosts.delete, Hosts.get]
  | cons e rest ih =>
    obtain ⟨a, v⟩ := e
    by_cases hak : a = k
    · have : Hosts.delete ((a, v) :: rest) k = Hosts.delete rest k := by
        simp [Hosts.delete, hak]
      rw [this, ih]
      by_cases hnk : n = k
      · simp [hnk]
      · have : ¬ a = n := fun h => hnk (h ▸ hak)
        simp [hnk, Hosts.get, this]
    · have : Hosts.delete ((a, v) :: rest) k = (a, v) :: Hosts.delete rest k := by
        simp [Hosts.delete, hak]
      rw [this]
      by_cases han : a = n
      · have : ¬ n = k := fun h => hak (han.trans h)
        simp [Hosts.get, han, this]
      · simp [Hosts.get, han, ih]

theorem Hosts.get_set (m : Hosts) (k n : String) (v : NodeAddr) :
    (m.set k v).get n = if k = n then some v else m.get n := by
  by_cases hkn : k = n
  · simp [Hosts.set, Hosts.get, hkn]
  · have : ¬ n = k := fun h => hkn h.symm
    simp [Hosts.set, Hosts.get, hkn, Hosts.get_delete, this]

theorem clearLoop_covered (todo : List String) (m : Hosts)
    (h : ∀ e ∈ m, e.1 ∈ todo) : clearLoop todo m = [] := by
  induction todo generalizing m with
  | nil =>
    cases m with
    | nil => rfl
    | cons e rest => exact absurd (h e (List.mem_cons_self _ _)) (List.not_mem_nil _)
  | cons k rest ih =>
    have hstep : clearLoop (k :: rest) m = clearLoop rest (m.delete k) := rfl
    rw [hstep]
    apply ih
    intro e he
    have he2 : e ∈ m ∧ e.1 ≠ k := by simpa [Hosts.delete] using he
    have := h e he2.1
    simp only [List.mem_cons] at this
    rcases this with h1 | h1
    · exact absurd h1 he2.2
    · exact h1

theorem clearLoop_keys (m : Hosts) : clearLoop m.keys m = [] :=
  clearLoop_covered m.keys m (fun _ he => List.mem_map_of_mem Prod.fst he)

/-- The writes of a sequence of assignments `m[f x] = g x`: the last one to a
key decides its value, an untouched key keeps what it had. -/
theorem get_foldl_set {α : Type} (f : α → String) (g : α → NodeAddr) (xs : List α)
    (m : Hosts) (n : String) :
    (xs.foldl (fun h x => Hosts.set h (f x) (g x)) m).get n =
      ((xs.reverse.find? (fun x => decide (f x = n))).map g).or (m.get n) := by
  induction xs using List.reverseRecOn with
  | nil => simp
  | append_singleton xs x ih =>
    rw [List.foldl_append, List.reverse_append]
    simp only [List.foldl_cons, List.foldl_nil, List.reverse_cons, List.reverse_nil,
      List.nil_append, List.singleton_append]
    rw [Hosts.get_set, List.find?_cons]
    by_cases hx : f x = n
    · simp [hx]
    · simp only [hx, if_false, decide_False]
      exact ih

theorem get_none_of_not_mem_keys (m : Hosts) (n : String) (h : n ∉ m.keys) :
    m.get n = none := by
  induction m with
  | nil => rfl
  | cons e rest ih =>
    obtain ⟨a, v⟩ := e
    have h1 : ¬ a = n := by
      intro han
      apply h
      simp [Hosts.keys, han]
    have h2 : n ∉ Hosts.keys rest := by
      intro hn
      apply h
      simp only [Hosts.keys, List.map_cons, List.mem_cons]
      exact Or.inr hn
    simp [Hosts.get, h1, ih h2]

/-- Copying a map that holds every key once: a key of the source gets the
source's value, any other key keeps what the target had. -/
theorem get_copyLoop (todo : Hosts) (hn : todo.keys.Nodup) (m : Hosts) (n : String) :
    (copyLoop todo m).get n = (todo.get n).or (m.get n) := by
  induction todo generalizing m with
  | nil => simp [copyLoop, Hosts.get]
  | cons e rest ih =>
    obtain ⟨a, v⟩ := e
    have hstep : copyLoop ((a, v) :: rest) m = copyLoop rest (m.set a v) := rfl
    have hn2 : a ∉ Hosts.keys rest ∧ (Hosts.keys rest).Nodup := by
      simpa [Hosts.keys] using hn
    rw [hstep, ih hn2.2, Hosts.get_set]
    by_cases han : a = n
    · subst han
      simp [Hosts.get, get_none_of_not_mem_keys rest a hn2.1]
    · simp [Hosts.get, han]

/-- A map built by assignments alone holds every key once. -/
theorem keys_set_nodup (m : Hosts) (k : String) (v : NodeAddr) (h : m.keys.Nodup) :
    (m.set k v).keys.Nodup := by
  have hsub : (Hosts.delete m k).keys.Nodup := by
    unfold Hosts.keys Hosts.delete
    exact (List.Nodup.sublist (List.Sublist.map _ (List.filter_sublist _)) h)
  have hk : k ∉ (Hosts.delete m k).keys := by
    unfold Hosts.keys Hosts.delete
    simp
  simp only [Hosts.set, Hosts.keys, List.map_cons, List.nodup_cons]
  exact ⟨hk, hsub⟩

/-! ## The query path: answers and delegation -/

/-- What `AddARecord` does when the map holds the name. -/
theorem AddARecord_present (k : K8SNode) (msg : Msg) (hosts : Hosts) (name : String)
    (stored : NodeAddr) (h : hosts.get name = some stored) :
    k.AddARecord msg hosts name =
      ({ msg with
         Answer := msg.Answer ++
           [if stored.Ipv6 then
              RR.AAAA { Name := name, Rrtype := TypeAAAA, Class := ClassINET, Ttl := 60 }
                stored.Address
            else
              RR.A { Name := name, Rrtype := TypeA, Class := ClassINET, Ttl := 60 }
                stored.Address] }, true) := by
  unfold K8SNode.AddARecord
  rw [h]
  cases hv : stored.Ipv6 <;> simp [hv]

/-- An in-zone `A` or `AAAA` query gets past both checks: the lock is taken and
the map is read at the lower-cased name. -/
theorem ServeDNS_reaches_table (k : K8SNode) (env : Env) (hosts : Hosts) (r : Msg)
    (hz : HasSuffix (Request.QName env r) (k.Domain ++ ".") = true)
    (ht : Request.QType r = TypeA ∨ Request.QType r = TypeAAAA) :
    k.ServeDNS env hosts r =
      if (k.AddARecord
            { Msg.new.SetReply r with
              Authoritative := true, RecursionAvailable := true, Answer := [] }
            hosts (Request.Name env r)).2 = true then
        { trace :=
            [Event.RLock, Event.MapRead (Request.Name env r),
             Event.WriteMsg
               (k.AddARecord
                 { Msg.new.SetReply r with
                   Authoritative := true, RecursionAvailable := true, Answer := [] }
                 hosts (Request.Name env r)).1,
             Event.RUnlock],
          rcode := RcodeSuccess, err := none }
      else
        { trace := [Event.RLock, Event.MapRead (Request.Name env r)] ++
            (NextOrFailure k.Name k.Next r).1 ++ [Event.RUnlock],
          rcode := (NextOrFailure k.Name k.Next r).2.rcode,
          err := (NextOrFailure k.Name k.Next r).2.err } := by
  have hty : ¬ (Request.QType r ≠ TypeA ∧ Request.QType r ≠ TypeAAAA) := by
    rcases ht with h | h <;> simp [h]
  unfold K8SNode.ServeDNS
  simp only [hz, hty, Bool.not_true, Bool.false_eq_true, if_false]

/-- The name `ServeDNS` looks up is the lower-cased form of the name it checks
against the zone. -/
theorem Request.Name_eq_ToLower_QName (env : Env) (r : Msg) :
    Request.Name env r = ToLower (Request.QName env r) := by
  unfold Request.Name Request.QName
  cases r.Question with
  | nil =>
    show ("." : String) = ToLower "."
    decide
  | cons q rest => rfl

/-- C1 (as amended). Let `n` be the query name as `ServeDNS` reads it: the
first question's name in the presentation form `dns.Name.String` gives it. For
every table and every `A` or `AAAA` query such that `n` ends with the zone
suffix and the lower-cased `n`, which is the name `ServeDNS` looks up, is a key
of the table, the query is answered: the lock is taken, the map is read at the
lower-cased `n`, one reply is written, the next plugin is not called and the
call returns success. The reply is the reply to the request, marked
authoritative and recursion-available, with exactly one answer record: `AAAA`
when the stored `Ipv6` flag is set and `A` otherwise, whatever type was asked
for, with the lower-cased `n`, the stored address and TTL 60. -/
theorem ServeDNS_answers_by_family (k : K8SNode) (env : Env) (hosts : Hosts) (r : Msg)
    (stored : NodeAddr)
    (ht : Request.QType r = TypeA ∨ Request.QType r = TypeAAAA)
    (hz : HasSuffix (Request.QName env r) (k.Domain ++ ".") = true)
    (hrec : hosts.get (ToLower (Request.QName env r)) = some stored) :
    (∀ q rest, r.Question = q :: rest → Request.QName env r = env.NameString q.Name) ∧
      Request.Name env r = ToLower (Request.QName env r) ∧
      k.ServeDNS env hosts r =
        { trace :=
            [Event.RLock, Event.MapRead (ToLower (Request.QName env r)),
             Event.WriteMsg
               { Msg.new.SetReply r with
                 Authoritative := true, RecursionAvailable := true,
                 Answer :=
                   [if stored.Ipv6 then
                      RR.AAAA { Name := ToLower (Request.QName env r), Rrtype := TypeAAAA,
                                Class := ClassINET, Ttl := 60 } stored.Address
                    else
                      RR.A { Name := ToLower (Request.QName env r), Rrtype := TypeA,
                             Class := ClassINET, Ttl := 60 } stored.Address] },
             Event.RUnlock],
          rcode := RcodeSuccess, err := none } := by
  refine ⟨?_, Request.Name_eq_ToLower_QName env r, ?_⟩
  · intro q rest hq
    simp [Request.QName, hq]
  · rw [ServeDNS_reaches_table k env hosts r hz ht, Request.Name_eq_ToLower_QName env r,
      AddARecord_present k _ hosts (ToLower (Request.QName env r)) stored hrec]
    simp

/-- Witness for C1: the stored record `fd00::5` is served as an `AAAA` record
to a query of type `A`. -/
theorem ServeDNS_answers_by_family_witness :
    Request.QName (sampleEnv []) (query "node1.cluster.local." TypeA) =
        "node1.cluster.local." ∧
      HasSuffix "node1.cluster.local." (sampleNode.Domain ++ ".") = true ∧
      Hosts.get [("node1.cluster.local.", { Address := ipfd00__5, Ipv6 := true })]
        (ToLower "node1.cluster.local.") = some { Address := ipfd00__5, Ipv6 := true } ∧
      sampleNode.ServeDNS (sampleEnv [])
          [("node1.cluster.local.", { Address := ipfd00__5, Ipv6 := true })]
          (query "node1.cluster.local." TypeA) =
        { trace :=
            [Event.RLock, Event.MapRead "node1.cluster.local.",
             Event.WriteMsg
               { Id := 7, Response := true, Opcode := 0, Authoritative := true,
                 RecursionDesired := true, RecursionAvailable := true,
                 CheckingDisabled := false, Rcode := 0,
                 Question := [{ Name := "node1.cluster.local.", Qtype := 1, Qclass := 1 }],
                 Answer := [RR.AAAA { Name := "node1.cluster.local.", Rrtype := 28,
                                      Class := 1, Ttl := 60 } ipfd00__5] },
             Event.RUnlock],
          rcode := 0, err := none } :=
  ⟨by decide, by decide, by decide,
    ((ServeDNS_answers_by_family sampleNode (sampleEnv [])
      [("node1.cluster.local.", { Address := ipfd00__5, Ipv6 := true })]
      (query "node1.cluster.local." TypeA)
      { Address := ipfd00__5, Ipv6 := true } (Or.inl rfl) (by decide) (by decide)).2.2).trans
      (by decide)⟩

/-- C1 (as stated) fails, in two ways. The in-zone name `Node1.cluster.local.`
is a key of the table, yet the query for it is handed to the next plugin,
because the map is read at the lower-cased name. And the in-zone name
`no@de.cluster.local.` is a key of the table, yet the query for it is handed to
the next plugin, because `ServeDNS` reads the name as `no\@de.cluster.local.`. -/
theorem ServeDNS_key_with_capital_not_answered :
    HasSuffix "Node1.cluster.local." (sampleNode.Domain ++ ".") = true ∧
      Hosts.get [("Node1.cluster.local.", { Address := ip10_0_0_5, Ipv6 := false })]
        "Node1.cluster.local." = some { Address := ip10_0_0_5, Ipv6 := false } ∧
      sampleNode.ServeDNS (sampleEnv [])
          [("Node1.cluster.local.", { Address := ip10_0_0_5, Ipv6 := false })]
          (query "Node1.cluster.local." TypeA) =
        { trace := [Event.RLock, Event.MapRead "node1.cluster.local.", Event.CallNext,
                    Event.RUnlock],
          rcode := 5, err := none } ∧
      HasSuffix "no@de.cluster.local." (sampleNode.Domain ++ ".") = true ∧
      Hosts.get [("no@de.cluster.local.", { Address := ip10_0_0_5, Ipv6 := false })]
        "no@de.cluster.local." = some { Address := ip10_0_0_5, Ipv6 := false } ∧
      sampleNode.ServeDNS (sampleEnv [])
          [("no@de.cluster.local.", { Address := ip10_0_0_5, Ipv6 := false })]
          (query "no@de.cluster.local." TypeA) =
        { trace := [Event.RLock, Event.MapRead "no\\@de.cluster.local.", Event.CallNext,
                    Event.RUnlock],
          rcode := 5, err := none } := by
  decide

/-- C2. A query whose name does not end with `Domain + "."` is delegated
whatever the table holds: the outcome is the same for any two tables, no event
of the call touches the table or its lock or writes a reply, and the call
returns what `plugin.NextOrFailure` returns: the next plugin's code and error
after exactly one call of it, or the server failure of a chain that ends here. -/
theorem ServeDNS_out_of_zone_delegates (k : K8SNode) (env : Env) (hosts other : Hosts) (r : Msg)
    (hz : HasSuffix (Request.QName env r) (k.Domain ++ ".") = false) :
    k.ServeDNS env hosts r = k.ServeDNS env other r ∧
      (∀ e ∈ (k.ServeDNS env hosts r).trace, e.touchesTable = false ∧ e.isWrite = false) ∧
      (∀ next, k.Next = some next →
        k.ServeDNS env hosts r =
          { trace := [Event.CallNext], rcode := (next r).rcode, err := (next r).err }) ∧
      (k.Next = none →
        k.ServeDNS env hosts r =
          { trace := [], rcode := RcodeServerFailure,
            err := some "plugin/k8s_node: no next plugin found" }) := by
  have hout : ∀ h : Hosts, k.ServeDNS env h r =
      { trace := (NextOrFailure k.Name k.Next r).1,
        rcode := (NextOrFailure k.Name k.Next r).2.rcode,
        err := (NextOrFailure k.Name k.Next r).2.err } := by
    intro h
    unfold K8SNode.ServeDNS
    simp [hz]
  refine ⟨by rw [hout hosts, hout other], ?_, ?_, ?_⟩
  · rw [hout hosts]
    cases hn : k.Next with
    | none => simp [NextOrFailure]
    | some next => simp [NextOrFailure, Event.touchesTable, Event.isWrite]
  · intro next hn
    rw [hout hosts, hn]
    rfl
  · intro hn
    rw [hout hosts, hn]
    simp only [NextOrFailure, K8SNode.Name]
    decide

/-- Witness for C2: `node1.otherzone.org.` is delegated. -/
theorem ServeDNS_out_of_zone_delegates_witness :
    HasSuffix (Request.QName (sampleEnv []) (query "node1.otherzone.org." TypeA))
        (sampleNode.Domain ++ ".") = false ∧
      sampleNode.ServeDNS (sampleEnv []) [("node1.otherzone.org.", { Address := ip10_0_0_5, Ipv6 := false })]
          (query "node1.otherzone.org." TypeA) =
        { trace := [Event.CallNext], rcode := 5, err := none } :=
  ⟨by decide,
    (ServeDNS_out_of_zone_delegates sampleNode (sampleEnv [])
      [("node1.otherzone.org.", { Address := ip10_0_0_5, Ipv6 := false })] []
      (query "node1.otherzone.org." TypeA) (by decide)).2.2.1 refusing rfl⟩

/-- C3 (as amended). Let `n` be the query name as `ServeDNS` reads it: the
first question's name in the presentation form `dns.Name.String` gives it. A
query for which `n` ends with the zone suffix and which asks for a type other
than `A` and `AAAA`, or asks for `A` or `AAAA` while the name `ServeDNS` looks
up, the lower-cased `n`, is no key of the table, is delegated: no reply is
written and the call returns the next plugin's code and error after exactly
one call of it, or the server failure of a chain that ends here. Both cases
give the caller the same result. -/
theorem ServeDNS_no_match_delegates (k : K8SNode) (env : Env) (hosts : Hosts) (r : Msg)
    (hz : HasSuffix (Request.QName env r) (k.Domain ++ ".") = true)
    (hno : (Request.QType r ≠ TypeA ∧ Request.QType r ≠ TypeAAAA) ∨
      hosts.get (ToLower (Request.QName env r)) = none) :
    (∀ e ∈ (k.ServeDNS env hosts r).trace, e.isWrite = false) ∧
      (∀ next, k.Next = some next →
        (k.ServeDNS env hosts r).rcode = (next r).rcode ∧
        (k.ServeDNS env hosts r).err = (next r).err ∧
        (k.ServeDNS env hosts r).trace.count Event.CallNext = 1) ∧
      (k.Next = none →
        (k.ServeDNS env hosts r).rcode = RcodeServerFailure ∧
        (k.ServeDNS env hosts r).err = some "plugin/k8s_node: no next plugin found" ∧
        (k.ServeDNS env hosts r).trace.count Event.CallNext = 0) := by
  have herr : ("plugin/" ++ "k8s_node" ++ ": no next plugin found" : String) =
      "plugin/k8s_node: no next plugin found" := by decide
  by_cases hty : Request.QType r ≠ TypeA ∧ Request.QType r ≠ TypeAAAA
  · have hout : k.ServeDNS env hosts r =
        { trace := (NextOrFailure k.Name k.Next r).1,
          rcode := (NextOrFailure k.Name k.Next r).2.rcode,
          err := (NextOrFailure k.Name k.Next r).2.err } := by
      unfold K8SNode.ServeDNS
      simp [hz, hty]
    rw [hout]
    cases hn : k.Next with
    | none => simp [NextOrFailure, K8SNode.Name, herr]
    | some next => simp [NextOrFailure, Event.isWrite]
  · have hget : hosts.get (Request.Name env r) = none := by
      rw [Request.Name_eq_ToLower_QName]
      rcases hno with h | h
      · exact absurd h hty
      · exact h
    have hout : k.ServeDNS env hosts r =
        { trace := [Event.RLock, Event.MapRead (Request.Name env r)] ++
            (NextOrFailure k.Name k.Next r).1 ++ [Event.RUnlock],
          rcode := (NextOrFailure k.Name k.Next r).2.rcode,
          err := (NextOrFailure k.Name k.Next r).2.err } := by
      unfold K8SNode.ServeDNS
      simp [hz, hty, K8SNode.AddARecord, hget]
    rw [hout]
    cases hn : k.Next with
    | none => simp [NextOrFailure, K8SNode.Name, herr, Event.isWrite]
    | some next => simp [NextOrFailure, Event.isWrite]

/-- Witness for C3: `unknown.cluster.local.` is not in the table and is
delegated. -/
theorem ServeDNS_no_match_delegates_witness :
    HasSuffix (Request.QName (sampleEnv []) (query "unknown.cluster.local." TypeA))
        (sampleNode.Domain ++ ".") = true ∧
      Hosts.get [("node1.cluster.local.", { Address := ip10_0_0_5, Ipv6 := false })]
        (ToLower (Request.QName (sampleEnv []) (query "unknown.cluster.local." TypeA))) =
          none ∧
      (sampleNode.ServeDNS (sampleEnv []) [("node1.cluster.local.", { Address := ip10_0_0_5, Ipv6 := false })]
          (query "unknown.cluster.local." TypeA)).rcode = 5 :=
  ⟨by decide, by decide,
    ((ServeDNS_no_match_delegates sampleNode (sampleEnv [])
      [("node1.cluster.local.", { Address := ip10_0_0_5, Ipv6 := false })]
      (query "unknown.cluster.local." TypeA) (by decide) (Or.inr (by decide))).2.1
        refusing rfl).1⟩

/-- C3 (as stated) fails, in two ways. The in-zone name `NODE1.cluster.local.`
is no key of the table, yet the `A` query for it is answered, with the record
stored under `node1.cluster.local.`. And the in-zone name
`no@de.cluster.local.` is no key of the table, yet the `A` query for it is
answered, with the record stored under `no\@de.cluster.local.`. -/
theorem ServeDNS_capital_query_answered :
    HasSuffix "NODE1.cluster.local." (sampleNode.Domain ++ ".") = true ∧
      Hosts.get [("node1.cluster.local.", { Address := ip10_0_0_5, Ipv6 := false })]
        "NODE1.cluster.local." = none ∧
      sampleNode.ServeDNS (sampleEnv [])
          [("node1.cluster.local.", { Address := ip10_0_0_5, Ipv6 := false })]
          (query "NODE1.cluster.local." TypeA) =
        { trace :=
            [Event.RLock, Event.MapRead "node1.cluster.local.",
             Event.WriteMsg
               { Id := 7, Response := true, Opcode := 0, Authoritative := true,
                 RecursionDesired := true, RecursionAvailable := true,
                 CheckingDisabled := false, Rcode := 0,
                 Question := [{ Name := "NODE1.cluster.local.", Qtype := 1, Qclass := 1 }],
                 Answer := [RR.A { Name := "node1.cluster.local.", Rrtype := 1,
                                   Class := 1, Ttl := 60 } ip10_0_0_5] },
             Event.RUnlock],
          rcode := 0, err := none } ∧
      HasSuffix "no@de.cluster.local." (sampleNode.Domain ++ ".") = true ∧
      Hosts.get [("no\\@de.cluster.local.", { Address := ip10_0_0_5, Ipv6 := false })]
        "no@de.cluster.local." = none ∧
      sampleNode.ServeDNS (sampleEnv [])
          [("no\\@de.cluster.local.", { Address := ip10_0_0_5, Ipv6 := false })]
          (query "no@de.cluster.local." TypeA) =
        { trace :=
            [Event.RLock, Event.MapRead "no\\@de.cluster.local.",
             Event.WriteMsg
               { Id := 7, Response := true, Opcode := 0, Authoritative := true,
                 RecursionDesired := true, RecursionAvailable := true,
                 CheckingDisabled := false, Rcode := 0,
                 Question := [{ Name := "no@de.cluster.local.", Qtype := 1, Qclass := 1 }],
                 Answer := [RR.A { Name := "no\\@de.cluster.local.", Rrtype := 1,
                                   Class := 1, Ttl := 60 } ip10_0_0_5] },
             Event.RUnlock],
          rcode := 0, err := none } := by
  decide

/-- On the miss path the next plugin is called with the read lock held, for
every table, zone and next plugin. -/
theorem ServeDNS_miss_holds_lock (k : K8SNode) (env : Env) (hosts : Hosts) (r : Msg) (next : Handler)
    (hz : HasSuffix (Request.QName env r) (k.Domain ++ ".") = true)
    (ht : Request.QType r = TypeA ∨ Request.QType r = TypeAAAA)
    (hmiss : hosts.get (Request.Name env r) = none)
    (hnext : k.Next = some next) :
    (k.ServeDNS env hosts r).trace =
        [Event.RLock, Event.MapRead (Request.Name env r), Event.CallNext, Event.RUnlock] ∧
      heldAtNext 0 (k.ServeDNS env hosts r).trace = true := by
  have htrace : (k.ServeDNS env hosts r).trace =
      [Event.RLock, Event.MapRead (Request.Name env r), Event.CallNext, Event.RUnlock] := by
    rw [ServeDNS_reaches_table k env hosts r hz ht]
    simp [K8SNode.AddARecord, hmiss, NextOrFailure, hnext]
  refine ⟨htrace, ?_⟩
  rw [htrace]
  simp [heldAtNext]

/-- On the two delegation paths ahead of the lookup the lock is not held when
the next plugin is called. -/
theorem ServeDNS_early_delegation_without_lock (k : K8SNode) (env : Env) (hosts : Hosts) (r : Msg)
    (h : HasSuffix (Request.QName env r) (k.Domain ++ ".") = false ∨
      (Request.QType r ≠ TypeA ∧ Request.QType r ≠ TypeAAAA)) :
    heldAtNext 0 (k.ServeDNS env hosts r).trace = false := by
  have hout : k.ServeDNS env hosts r =
      { trace := (NextOrFailure k.Name k.Next r).1,
        rcode := (NextOrFailure k.Name k.Next r).2.rcode,
        err := (NextOrFailure k.Name k.Next r).2.err } := by
    unfold K8SNode.ServeDNS
    rcases h with h | h
    · simp [h]
    · by_cases hz : HasSuffix (Request.QName env r) (k.Domain ++ ".") = true
      · simp [hz, h]
      · simp [hz]
  rw [hout]
  cases hn : k.Next <;> simp [NextOrFailure, heldAtNext]

/-- C9, the code at the failing input: for an in-zone `A` query whose name is
not in the table, the next plugin is called between `RLock` and the deferred
`RUnlock`, so the read lock is held during the call; on the two earlier
delegation paths (foreign zone, other query type) it is not. -/
theorem ServeDNS_calls_next_under_read_lock :
    (sampleNode.ServeDNS (sampleEnv []) [("node1.cluster.local.", { Address := ip10_0_0_5, Ipv6 := false })]
        (query "unknown.cluster.local." TypeA)).trace =
      [Event.RLock, Event.MapRead "unknown.cluster.local.", Event.CallNext, Event.RUnlock] ∧
    heldAtNext 0
      (sampleNode.ServeDNS (sampleEnv []) [("node1.cluster.local.", { Address := ip10_0_0_5, Ipv6 := false })]
        (query "unknown.cluster.local." TypeA)).trace = true ∧
    heldAtNext 0
      (sampleNode.ServeDNS (sampleEnv []) [("node1.cluster.local.", { Address := ip10_0_0_5, Ipv6 := false })]
        (query "node1.otherzone.org." TypeA)).trace = false ∧
    heldAtNext 0
      (sampleNode.ServeDNS (sampleEnv []) [("node1.cluster.local.", { Address := ip10_0_0_5, Ipv6 := false })]
        (query "node1.cluster.local." 16)).trace = false := by
  decide

/-! ## The refresh path -/

/-- C6. When building the client configuration, creating the client or listing
the nodes fails, `UpdateNodeList` returns with the table as it was and without
having taken the lock: every map read and every `ServeDNS` call gives the same
result after the failed cycle as before it. -/
theorem UpdateNodeList_failure_keeps_table (env : Env) (k : K8SNode) (shared : Hosts)
    (hfail : (∃ e, env.BuildConfigFromFlags k.kubeconfig = Except.error e) ∨
      (∃ e, env.NewForConfig = Except.error e) ∨
      (∃ e, env.NodesList = Except.error e)) :
    k.UpdateNodeList env shared = (shared, []) ∧
      (∀ n, (k.UpdateNodeList env shared).1.get n = shared.get n) ∧
      (∀ r, k.ServeDNS env (k.UpdateNodeList env shared).1 r = k.ServeDNS env shared r) := by
  have hkeep : k.UpdateNodeList env shared = (shared, []) := by
    unfold K8SNode.UpdateNodeList
    rcases hfail with ⟨e, he⟩ | ⟨e, he⟩ | ⟨e, he⟩
    · simp [he]
    · cases env.BuildConfigFromFlags k.kubeconfig <;> simp [he]
    · cases env.BuildConfigFromFlags k.kubeconfig <;> cases env.NewForConfig <;> simp [he]
  refine ⟨hkeep, ?_, ?_⟩
  · intro n
    rw [hkeep]
  · intro r
    rw [hkeep]

/-- Witness for C6: a failed node listing leaves a one-entry table as it was. -/
theorem UpdateNodeList_failure_keeps_table_witness :
    failingEnv.NodesList = Except.error "connection refused" ∧
      sampleNode.UpdateNodeList failingEnv
          [("node1.cluster.local.", { Address := ip10_0_0_5, Ipv6 := false })] =
        ([("node1.cluster.local.", { Address := ip10_0_0_5, Ipv6 := false })], []) :=
  ⟨rfl,
    (UpdateNodeList_failure_keeps_table failingEnv sampleNode
      [("node1.cluster.local.", { Address := ip10_0_0_5, Ipv6 := false })]
      (Or.inr (Or.inr ⟨"connection refused", rfl⟩))).1⟩

theorem keys_foldl_set_nodup {α : Type} (f : α → String) (g : α → NodeAddr) (xs : List α)
    (m : Hosts) (h : m.keys.Nodup) :
    (xs.foldl (fun h x => Hosts.set h (f x) (g x)) m).keys.Nodup := by
  induction xs generalizing m with
  | nil => exact h
  | cons x rest ih => exact ih _ (keys_set_nodup m (f x) (g x) h)

theorem buildHosts_keys_nodup (env : Env) (k : K8SNode) (items : List Node) :
    (buildHosts env k items).keys.Nodup :=
  keys_foldl_set_nodup _ _ items [] List.nodup_nil

/-- Reading the table after the critical section is reading the local map. -/
theorem get_install (built shared : Hosts) (hn : built.keys.Nodup) (n : String) :
    (install built shared).get n = built.get n := by
  unfold install
  rw [clearLoop_keys, get_copyLoop built hn]
  simp [Hosts.get]

/-- Reading the local map: the record of the last item that derives the name. -/
theorem get_buildHosts (env : Env) (k : K8SNode) (items : List Node) (n : String) :
    (buildHosts env k items).get n =
      (items.reverse.find? (fun it => decide ((nodeEntry env k it).1 = n))).map
        (fun it => (nodeEntry env k it).2) := by
  unfold buildHosts
  rw [get_foldl_set (fun it => (nodeEntry env k it).1) (fun it => (nodeEntry env k it).2)]
  simp [Hosts.get]

/-- A successful cycle installs the local map and takes the lock once. -/
theorem UpdateNodeList_ok (env : Env) (k : K8SNode) (shared : Hosts) (items : List Node)
    (hc : env.BuildConfigFromFlags k.kubeconfig = Except.ok ())
    (hn : env.NewForConfig = Except.ok ())
    (hl : env.NodesList = Except.ok items) :
    k.UpdateNodeList env shared =
      (install (buildHosts env k items) shared, [Event.Lock, Event.Unlock]) := by
  unfold K8SNode.UpdateNodeList
  simp [hc, hn, hl]

/-- C5. After a successful `UpdateNodeList` the table is the freshly built set
of entries, whatever it held before: reading any name gives what the local map
built from the listing gives, which is the record of the last listed item that
derives this name; a name that no listed item derives is absent, so no entry
of the previous generation survives. -/
theorem UpdateNodeList_installs_inventory (env : Env) (k : K8SNode) (shared : Hosts)
    (items : List Node)
    (hc : env.BuildConfigFromFlags k.kubeconfig = Except.ok ())
    (hn : env.NewForConfig = Except.ok ())
    (hl : env.NodesList = Except.ok items) (n : String) :
    (k.UpdateNodeList env shared).1.get n = (buildHosts env k items).get n ∧
      (k.UpdateNodeList env shared).1.get n =
        (items.reverse.find? (fun it => decide ((nodeEntry env k it).1 = n))).map
          (fun it => (nodeEntry env k it).2) ∧
      ((∀ it ∈ items, (nodeEntry env k it).1 ≠ n) →
        (k.UpdateNodeList env shared).1.get n = none) := by
  have h1 : (k.UpdateNodeList env shared).1.get n = (buildHosts env k items).get n := by
    rw [UpdateNodeList_ok env k shared items hc hn hl]
    exact get_install _ _ (buildHosts_keys_nodup env k items) n
  refine ⟨h1, ?_, ?_⟩
  · rw [h1, get_buildHosts]
  · intro hno
    rw [h1, get_buildHosts]
    have : items.reverse.find? (fun it => decide ((nodeEntry env k it).1 = n)) = none := by
      rw [List.find?_eq_none]
      intro it hit
      simpa using hno it (List.mem_reverse.mp hit)
    rw [this]
    rfl

/-- Witness for C5: the stale entry is gone, the listed node is there. -/
theorem UpdateNodeList_installs_inventory_witness :
    (sampleEnv [node "node1" "10.0.0.5"]).NodesList = Except.ok [node "node1" "10.0.0.5"] ∧
      (sampleNode.UpdateNodeList (sampleEnv [node "node1" "10.0.0.5"])
          [("stale.cluster.local.", { Address := ipfd00__5, Ipv6 := true })]).1.get
          "stale.cluster.local." = none ∧
      (sampleNode.UpdateNodeList (sampleEnv [node "node1" "10.0.0.5"])
          [("stale.cluster.local.", { Address := ipfd00__5, Ipv6 := true })]).1.get
          "node1.cluster.local." = some { Address := ip10_0_0_5, Ipv6 := false } :=
  ⟨rfl,
    (UpdateNodeList_installs_inventory (sampleEnv [node "node1" "10.0.0.5"]) sampleNode
      [("stale.cluster.local.", { Address := ipfd00__5, Ipv6 := true })]
      [node "node1" "10.0.0.5"] rfl rfl rfl "stale.cluster.local.").2.2 (by decide),
    ((UpdateNodeList_installs_inventory (sampleEnv [node "node1" "10.0.0.5"]) sampleNode
      [("stale.cluster.local.", { Address := ipfd00__5, Ipv6 := true })]
      [node "node1" "10.0.0.5"] rfl rfl rfl "node1.cluster.local.").1).trans (by decide)⟩

/-! ## What one listed node contributes -/

theorem scanAddresses_name (env : Env) (k : K8SNode) (as : List NodeAddress) :
    (scanAddresses env k as).1 =
      ((as.reverse.find? (fun a => decide (a.Type_ = NodeHostName))).map
        (fun a => (Split a.Address).headD "" ++ "." ++ k.Domain ++ ".")).getD "" := by
  induction as using List.reverseRecOn with
  | nil => rfl
  | append_singleton as a ih =>
    unfold scanAddresses at ih ⊢
    rw [List.foldl_append, List.reverse_append]
    simp only [List.foldl_cons, List.foldl_nil, List.reverse_cons, List.reverse_nil,
      List.nil_append, List.singleton_append, List.find?_cons]
    by_cases ha : a.Type_ = NodeHostName
    · simp [ha]
    · simp only [ha, if_false, decide_False]
      exact ih

theorem scanAddresses_addr (env : Env) (k : K8SNode) (as : List NodeAddress) :
    (scanAddresses env k as).2 =
      ((as.reverse.find? (fun a => decide (a.Type_ = NodeInternalIP))).map
        (fun a => env.ParseIP a.Address)).getD [] := by
  induction as using List.reverseRecOn with
  | nil => rfl
  | append_singleton as a ih =>
    unfold scanAddresses at ih ⊢
    rw [List.foldl_append, List.reverse_append]
    simp only [List.foldl_cons, List.foldl_nil, List.reverse_cons, List.reverse_nil,
      List.nil_append, List.singleton_append, List.find?_cons]
    by_cases ha : a.Type_ = NodeInternalIP
    · simp [ha]
    · simp only [ha, if_false, decide_False]
      exact ih

theorem nodeEntry_name (env : Env) (k : K8SNode) (n : Node) :
    (nodeEntry env k n).1 =
      ((n.lastOfType NodeHostName).map
        (fun a => (Split a.Address).headD "" ++ "." ++ k.Domain ++ ".")).getD "" := by
  unfold nodeEntry Node.lastOfType
  exact scanAddresses_name env k n.Addresses

theorem nodeEntry_addr (env : Env) (k : K8SNode) (n : Node) :
    (nodeEntry env k n).2.Address =
      ((n.lastOfType NodeInternalIP).map (fun a => env.ParseIP a.Address)).getD [] := by
  unfold nodeEntry Node.lastOfType
  exact scanAddresses_addr env k n.Addresses

theorem nodeEntry_flag (env : Env) (k : K8SNode) (n : Node) :
    (nodeEntry env k n).2.Ipv6 = (To4 (nodeEntry env k n).2.Address).isNone := by
  unfold nodeEntry
  cases h : To4 (scanAddresses env k n.Addresses).2 <;> simp [h]

theorem lastOfType_eq_none (n : Node) (t : String) :
    n.lastOfType t = none ↔ n.Addresses.any (fun a => decide (a.Type_ = t)) = false := by
  unfold Node.lastOfType
  rw [List.find?_eq_none]
  simp

theorem string_append_ne_empty (s : String) : s ++ "." ≠ "" := by
  intro h
  have := congrArg String.data h
  simp at this

theorem get_ne_none_iff (env : Env) (k : K8SNode) (items : List Node) (n : String) :
    (buildHosts env k items).get n ≠ none ↔ ∃ it ∈ items, (nodeEntry env k it).1 = n := by
  rw [get_buildHosts]
  constructor
  · intro h
    cases hf : items.reverse.find? (fun it => decide ((nodeEntry env k it).1 = n)) with
    | none => rw [hf] at h; exact absurd rfl h
    | some it =>
      refine ⟨it, List.mem_reverse.mp (List.mem_of_find?_eq_some hf), ?_⟩
      simpa using List.find?_some hf
  · rintro ⟨it, hit, hname⟩ h
    rw [Option.map_eq_none', List.find?_eq_none] at h
    exact h it (List.mem_reverse.mpr hit) (by simpa using hname)

/-- C7 (as amended). After a successful `UpdateNodeList` the keys of the table
are exactly the names derived from the listed items, all of them: an item
without a `Hostname` address derives the empty name and so contributes an
entry under the key `""`, while an item with one derives a non-empty name.
Such an item does not abort the cycle, which takes and releases the lock. -/
theorem UpdateNodeList_keys (env : Env) (k : K8SNode) (shared : Hosts) (items : List Node)
    (hc : env.BuildConfigFromFlags k.kubeconfig = Except.ok ())
    (hn : env.NewForConfig = Except.ok ())
    (hl : env.NodesList = Except.ok items) :
    (∀ n, (k.UpdateNodeList env shared).1.get n ≠ none ↔
        ∃ it ∈ items, (nodeEntry env k it).1 = n) ∧
      (∀ it : Node, it.hasHostName = false → (nodeEntry env k it).1 = "") ∧
      (∀ it : Node, it.hasHostName = true → (nodeEntry env k it).1 ≠ "") ∧
      (k.UpdateNodeList env shared).2 = [Event.Lock, Event.Unlock] := by
  refine ⟨?_, ?_, ?_, ?_⟩
  · intro n
    rw [UpdateNodeList_ok env k shared items hc hn hl]
    show (install (buildHosts env k items) shared).get n ≠ none ↔ _
    rw [get_install _ _ (buildHosts_keys_nodup env k items) n]
    exact get_ne_none_iff env k items n
  · intro it hit
    rw [nodeEntry_name, (lastOfType_eq_none it NodeHostName).mpr hit]
    rfl
  · intro it hit
    rw [nodeEntry_name]
    cases hlast : it.lastOfType NodeHostName with
    | none =>
      have hnone : it.hasHostName = false := (lastOfType_eq_none it NodeHostName).mp hlast
      rw [hnone] at hit
      exact absurd hit (by decide)
    | some a => exact string_append_ne_empty _
  · rw [UpdateNodeList_ok env k shared items hc hn hl]

/-- Witness for C7: a listing of one node without any address. -/
theorem UpdateNodeList_keys_witness :
    (sampleEnv [{ Addresses := [] }]).NodesList = Except.ok [{ Addresses := [] }] ∧
      (sampleNode.UpdateNodeList (sampleEnv [{ Addresses := [] }]) []).1.get "" ≠ none :=
  ⟨rfl,
    ((UpdateNodeList_keys (sampleEnv [{ Addresses := [] }]) sampleNode []
      [{ Addresses := [] }] rfl rfl rfl).1 "").mpr ⟨{ Addresses := [] }, by simp, by decide⟩⟩

/-- C7 (as stated) fails: a listed node that has an `InternalIP` address and no
`Hostname` address contributes an entry, under the empty name. -/
theorem UpdateNodeList_stores_nameless_node :
    Node.hasHostName { Addresses := [{ Type_ := NodeInternalIP, Address := "10.0.0.5" }] } =
        false ∧
      sampleNode.UpdateNodeList
          (sampleEnv [{ Addresses := [{ Type_ := NodeInternalIP, Address := "10.0.0.5" }] }])
          [] =
        ([("", { Address := ip10_0_0_5, Ipv6 := false })], [Event.Lock, Event.Unlock]) := by
  decide

theorem To4_eq_none_iff (ip : IP) : To4 ip = none ↔ (IsIPv6 ip = true ∨ To16 ip = none) := by
  unfold IsIPv6 To16 To4
  by_cases h4 : ip.length = 4
  · simp [h4]
  · by_cases h16 : ip.length = 16
    · simp [h4, h16]
    · simp [h4, h16]

/-- C8 (as amended). For every record a successful `UpdateNodeList` stores, the
`Ipv6` flag is false exactly when the stored address has a 4-byte form, and it
is true in every other case: exactly when the address is an IPv6 address or is
no address at all. The latter is the case of an item without an `InternalIP`
address, and of one whose `InternalIP` text does not parse: both are stored
with the empty address and the flag set. -/
theorem UpdateNodeList_flag_follows_To4 (env : Env) (k : K8SNode) (shared : Hosts)
    (items : List Node)
    (hc : env.BuildConfigFromFlags k.kubeconfig = Except.ok ())
    (hn : env.NewForConfig = Except.ok ())
    (hl : env.NodesList = Except.ok items) :
    (∀ n stored, (k.UpdateNodeList env shared).1.get n = some stored →
        (stored.Ipv6 = false ↔ IsIPv4 stored.Address = true) ∧
        (stored.Ipv6 = true ↔ (IsIPv6 stored.Address = true ∨ To16 stored.Address = none))) ∧
      (∀ it : Node, it.hasInternalIP = false →
        (nodeEntry env k it).2 = { Address := [], Ipv6 := true }) ∧
      (∀ (it : Node) (a : NodeAddress), it.lastOfType NodeInternalIP = some a →
        env.ParseIP a.Address = [] →
        (nodeEntry env k it).2 = { Address := [], Ipv6 := true }) := by
  have hempty : ∀ it : Node, (nodeEntry env k it).2.Address = [] →
      (nodeEntry env k it).2 = { Address := [], Ipv6 := true } := by
    intro it haddr
    have hflag := nodeEntry_flag env k it
    rw [haddr] at hflag
    cases hrec : (nodeEntry env k it).2 with
    | mk addr flag =>
      rw [hrec] at haddr hflag
      simp only at haddr hflag
      rw [haddr, hflag]
      rfl
  refine ⟨?_, ?_, ?_⟩
  · intro n stored hget
    rw [UpdateNodeList_ok env k shared items hc hn hl] at hget
    have hget2 : (buildHosts env k items).get n = some stored := by
      rw [← get_install _ shared (buildHosts_keys_nodup env k items) n]
      exact hget
    rw [get_buildHosts, Option.map_eq_some'] at hget2
    obtain ⟨it, _, hit⟩ := hget2
    have hflag := nodeEntry_flag env k it
    rw [hit] at hflag
    constructor
    · rw [hflag]
      unfold IsIPv4
      cases To4 stored.Address <;> simp
    · rw [← To4_eq_none_iff, hflag]
      cases To4 stored.Address <;> simp
  · intro it hit
    apply hempty
    rw [nodeEntry_addr, (lastOfType_eq_none it NodeInternalIP).mpr hit]
    rfl
  · intro it a hlast hparse
    apply hempty
    rw [nodeEntry_addr, hlast]
    exact hparse

/-- Witness for C8: the records stored for an IPv4 and an IPv6 node. -/
theorem UpdateNodeList_flag_follows_To4_witness :
    (sampleEnv [node "node1" "10.0.0.5", node "node2" "fd00::5"]).NodesList =
        Except.ok [node "node1" "10.0.0.5", node "node2" "fd00::5"] ∧
      (sampleNode.UpdateNodeList (sampleEnv [node "node1" "10.0.0.5", node "node2" "fd00::5"])
          []).1.get "node2.cluster.local." = some { Address := ipfd00__5, Ipv6 := true } ∧
      (true = true ↔ (IsIPv6 ipfd00__5 = true ∨ To16 ipfd00__5 = none)) :=
  ⟨rfl, by decide,
    ((UpdateNodeList_flag_follows_To4
      (sampleEnv [node "node1" "10.0.0.5", node "node2" "fd00::5"]) sampleNode []
      [node "node1" "10.0.0.5", node "node2" "fd00::5"] rfl rfl rfl).1
        "node2.cluster.local." { Address := ipfd00__5, Ipv6 := true } (by decide)).2⟩

/-- C8 (as stated) fails: a listed node without an `InternalIP` address is
stored with the empty address, which is neither an IPv4 nor an IPv6 address,
and with the `Ipv6` flag set. -/
theorem UpdateNodeList_flags_empty_address_as_ipv6 :
    sampleNode.UpdateNodeList
        (sampleEnv [{ Addresses := [{ Type_ := NodeHostName, Address := "node1" }] }]) [] =
      ([("node1.cluster.local.", { Address := [], Ipv6 := true })],
        [Event.Lock, Event.Unlock]) ∧
      IsIPv6 [] = false ∧ IsIPv4 [] = false := by
  decide

/-! ## From the inventory to the answer -/

theorem head_splitDots (cs cur : List Char) :
    (splitDots cs cur).headD "" =
      String.mk (cur.reverse ++ cs.takeWhile (fun c => decide (c ≠ '.'))) := by
  induction cs generalizing cur with
  | nil => simp [splitDots]
  | cons c rest ih =>
    unfold splitDots
    by_cases hc : c = '.'
    · simp [hc]
    · simp only [hc, if_false]
      rw [ih]
      simp [hc]

theorem head_Split (h : String) : (Split h).headD "" = firstLabel h := by
  unfold Split firstLabel
  rw [head_splitDots]
  simp

theorem HasSuffix_zone (label zone : String) :
    HasSuffix (label ++ "." ++ zone ++ ".") (zone ++ ".") = true := by
  unfold HasSuffix
  rw [List.isSuffixOf_iff_suffix]
  simp only [String.data_append, List.append_assoc]
  exact ⟨label.data ++ ".".data, by simp⟩

/-- What a node contributes when it has a `Hostname` address and an
`InternalIP` address with a 4-byte form; of several addresses of one type the
last one counts. -/
theorem nodeEntry_of_last (env : Env) (k : K8SNode) (it : Node) (ah ai : NodeAddress)
    (hh : it.lastOfType NodeHostName = some ah)
    (hi : it.lastOfType NodeInternalIP = some ai)
    (hv4 : IsIPv4 (env.ParseIP ai.Address) = true) :
    nodeEntry env k it =
      (firstLabel ah.Address ++ "." ++ k.Domain ++ ".",
        { Address := env.ParseIP ai.Address, Ipv6 := false }) := by
  have hname := nodeEntry_name env k it
  have haddr := nodeEntry_addr env k it
  have hflag := nodeEntry_flag env k it
  rw [hh] at hname
  rw [hi] at haddr
  simp only [Option.map_some', Option.getD_some] at hname haddr
  rw [haddr] at hflag
  have h4 : (To4 (env.ParseIP ai.Address)).isNone = false := by
    unfold IsIPv4 at hv4
    cases hto : To4 (env.ParseIP ai.Address) with
    | none => rw [hto] at hv4; exact absurd hv4 (by decide)
    | some v => rfl
  rw [h4] at hflag
  rw [head_Split] at hname
  cases hent : nodeEntry env k it with
  | mk name stored =>
    rw [hent] at hname haddr hflag
    cases stored with
    | mk addr flag =>
      simp only at hname haddr hflag
      rw [hname, haddr, hflag]

/-- The round trip from the inventory to the answer, for a derived name that
`dns.Name.String` and `strings.ToLower` both leave as it is: after a successful
`UpdateNodeList` over a listing of one node, a query of type `A` whose question
name is the derived name is answered with one `A` record carrying that name,
the parsed address and TTL 60. -/
theorem round_trip_for_plain_lower_case_name (env : Env) (k : K8SNode) (shared : Hosts)
    (it : Node) (ah ai : NodeAddress) (r : Msg) (q : Question) (rest : List Question)
    (hc : env.BuildConfigFromFlags k.kubeconfig = Except.ok ())
    (hn : env.NewForConfig = Except.ok ())
    (hl : env.NodesList = Except.ok [it])
    (hh : it.lastOfType NodeHostName = some ah)
    (hi : it.lastOfType NodeInternalIP = some ai)
    (hv4 : IsIPv4 (env.ParseIP ai.Address) = true)
    (hplain : env.NameString (firstLabel ah.Address ++ "." ++ k.Domain ++ ".") =
      firstLabel ah.Address ++ "." ++ k.Domain ++ ".")
    (hlow : ToLower (firstLabel ah.Address ++ "." ++ k.Domain ++ ".") =
      firstLabel ah.Address ++ "." ++ k.Domain ++ ".")
    (hq : r.Question = q :: rest)
    (hname : q.Name = firstLabel ah.Address ++ "." ++ k.Domain ++ ".")
    (hqt : q.Qtype = TypeA) :
    k.ServeDNS env (k.UpdateNodeList env shared).1 r =
      { trace :=
          [Event.RLock, Event.MapRead (firstLabel ah.Address ++ "." ++ k.Domain ++ "."),
           Event.WriteMsg
             { Msg.new.SetReply r with
               Authoritative := true, RecursionAvailable := true,
               Answer :=
                 [RR.A { Name := firstLabel ah.Address ++ "." ++ k.Domain ++ ".",
                         Rrtype := TypeA, Class := ClassINET, Ttl := 60 }
                    (env.ParseIP ai.Address)] },
           Event.RUnlock],
        rcode := RcodeSuccess, err := none } := by
  have hentry := nodeEntry_of_last env k it ah ai hh hi hv4
  have hqn : Request.QName env r = firstLabel ah.Address ++ "." ++ k.Domain ++ "." := by
    simp [Request.QName, hq, hname, hplain]
  have hty : Request.QType r = TypeA := by simp [Request.QType, hq, hqt]
  have hnm : Request.Name env r = firstLabel ah.Address ++ "." ++ k.Domain ++ "." := by
    rw [Request.Name_eq_ToLower_QName, hqn, hlow]
  have hget : (k.UpdateNodeList env shared).1.get
      (firstLabel ah.Address ++ "." ++ k.Domain ++ ".") =
      some { Address := env.ParseIP ai.Address, Ipv6 := false } := by
    rw [UpdateNodeList_ok env k shared [it] hc hn hl]
    show (install (buildHosts env k [it]) shared).get _ = _
    rw [get_install _ _ (buildHosts_keys_nodup env k [it]), get_buildHosts]
    simp [hentry]
  have hz : HasSuffix (Request.QName env r) (k.Domain ++ ".") = true := by
    rw [hqn]
    exact HasSuffix_zone (firstLabel ah.Address) k.Domain
  rw [ServeDNS_reaches_table k env _ r hz (Or.inl hty), hnm,
    AddARecord_present k _ _ _ _ hget]
  simp

/-- The round trip at host name `node1`, address `10.0.0.5`, zone
`cluster.local` and query `node1.cluster.local.`: answered with one `A` record. -/
theorem round_trip_node1 :
    sampleNode.ServeDNS (sampleEnv [])
        (sampleNode.UpdateNodeList (sampleEnv [node "node1" "10.0.0.5"])
          [("stale.cluster.local.", { Address := ipfd00__5, Ipv6 := true })]).1
        (query "node1.cluster.local." TypeA) =
      { trace :=
          [Event.RLock, Event.MapRead "node1.cluster.local.",
           Event.WriteMsg
             { Id := 7, Response := true, Opcode := 0, Authoritative := true,
               RecursionDesired := true, RecursionAvailable := true,
               CheckingDisabled := false, Rcode := 0,
               Question := [{ Name := "node1.cluster.local.", Qtype := 1, Qclass := 1 }],
               Answer := [RR.A { Name := "node1.cluster.local.", Rrtype := 1,
                                 Class := 1, Ttl := 60 } ip10_0_0_5] },
           Event.RUnlock],
        rcode := 0, err := none } := by
  decide

/-- C4, the code at the failing input. With the host name `Node1`, the address
`10.0.0.5` and the zone `cluster.local`, the refresh stores the record under
the derived name `Node1.cluster.local.` as it is, while `ServeDNS` reads the
map at the lower-cased query name `node1.cluster.local.`: the `A` query for
the derived name is handed to the next plugin. The same happens for the host
name `node1` under a zone set up as `Cluster.Local`, where the query written
in lower case is refused by the zone check as well. -/
theorem inventory_round_trip_capital_host :
    (sampleNode.UpdateNodeList (sampleEnv [node "Node1" "10.0.0.5"]) []).1 =
        [("Node1.cluster.local.", { Address := ip10_0_0_5, Ipv6 := false })] ∧
      firstLabel "Node1" ++ "." ++ sampleNode.Domain ++ "." = "Node1.cluster.local." ∧
      sampleNode.ServeDNS (sampleEnv [])
          (sampleNode.UpdateNodeList (sampleEnv [node "Node1" "10.0.0.5"]) []).1
          (query "Node1.cluster.local." TypeA) =
        { trace := [Event.RLock, Event.MapRead "node1.cluster.local.", Event.CallNext,
                    Event.RUnlock],
          rcode := 5, err := none } ∧
      (capitalZoneNode.UpdateNodeList (sampleEnv [node "node1" "10.0.0.5"]) []).1 =
        [("node1.Cluster.Local.", { Address := ip10_0_0_5, Ipv6 := false })] ∧
      capitalZoneNode.ServeDNS (sampleEnv [])
          (capitalZoneNode.UpdateNodeList (sampleEnv [node "node1" "10.0.0.5"]) []).1
          (query "node1.Cluster.Local." TypeA) =
        { trace := [Event.RLock, Event.MapRead "node1.cluster.local.", Event.CallNext,
                    Event.RUnlock],
          rcode := 5, err := none } ∧
      capitalZoneNode.ServeDNS (sampleEnv [])
          (capitalZoneNode.UpdateNodeList (sampleEnv [node "node1" "10.0.0.5"]) []).1
          (query "node1.cluster.local." TypeA) =
        { trace := [Event.CallNext], rcode := 5, err := none } := by
  decide

/-! ## Lookups racing one refresh -/

theorem countP_set (p : ReaderPc → Bool) (l : List ReaderPc) (i : Nat) (a b : ReaderPc)
    (h : l.get? i = some a) :
    (l.set i b).countP p + (if p a then 1 else 0) = l.countP p + (if p b then 1 else 0) := by
  induction l generalizing i with
  | nil => simp at h
  | cons x rest ih =>
    cases i with
    | zero =>
      simp only [List.get?_cons_zero, Option.some.injEq] at h
      subst h
      simp only [List.set_cons_zero, List.countP_cons]
      omega
    | succ i =>
      simp only [List.get?_cons_succ] at h
      have := ih i h
      simp only [List.set_cons_succ, List.countP_cons]
      omega

theorem countP_pos_of_get (p : ReaderPc → Bool) (l : List ReaderPc) (i : Nat) (a : ReaderPc)
    (h : l.get? i = some a) (hp : p a = true) : 0 < l.countP p := by
  rw [List.countP_pos_iff]
  exact ⟨a, List.get?_mem h, hp⟩

theorem Inv_init (old built : Hosts) (n : Nat) : (Sys.init old n).Inv old built := by
  refine ⟨⟨rfl, rfl⟩, ?_, ?_, ?_⟩
  · show 0 = List.countP ReaderPc.holding (List.replicate n ReaderPc.start)
    rw [List.countP_replicate]
    simp [ReaderPc.holding]
  · intro h
    rfl
  · intro pc hpc obs hobs
    have : pc = ReaderPc.start := List.eq_of_mem_replicate hpc
    rw [this] at hobs
    simp [ReaderPc.observed] at hobs

theorem Inv_stepWriter (old built : Hosts) (s t : Sys) (hinv : s.Inv old built)
    (hstep : stepWriter built s = some t) : t.Inv old built := by
  obtain ⟨hw, hcount, hexcl, hobs⟩ := hinv
  unfold stepWriter at hstep
  split at hstep
  · rename_i hpc
    rw [hpc] at hw
    split at hstep
    · rename_i hguard
      simp only [Option.some.injEq] at hstep
      subst hstep
      refine ⟨⟨rfl, ?_⟩, hcount, fun _ => hguard.2, hobs⟩
      show copyLoop built (clearLoop s.hosts.keys s.hosts) = install built old
      rw [hw.1]
      rfl
    · exact absurd hstep (by simp)
  · rename_i h todo hpc
    rw [hpc] at hw
    simp only [Option.some.injEq] at hstep
    subst hstep
    exact ⟨⟨hw.1, hw.2⟩, hcount, hexcl, hobs⟩
  · rename_i hpc
    rw [hpc] at hw
    simp only [Option.some.injEq] at hstep
    subst hstep
    exact ⟨⟨hw.1, hw.2⟩, hcount, hexcl, hobs⟩
  · rename_i e todo hpc
    rw [hpc] at hw
    simp only [Option.some.injEq] at hstep
    subst hstep
    exact ⟨⟨hw.1, hw.2⟩, hcount, hexcl, hobs⟩
  · rename_i hpc
    rw [hpc] at hw
    simp only [Option.some.injEq] at hstep
    subst hstep
    exact ⟨⟨hw.2, rfl⟩, hcount, fun h => absurd h (by simp), hobs⟩
  · exact absurd hstep (by simp)

theorem agrees_congr (old built : Hosts) (s t : Sys) (pc : WriterPc)
    (hh : t.hosts = s.hosts) (hm : t.mutex.writer = s.mutex.writer)
    (h : pc.agrees old built s) : pc.agrees old built t := by
  cases pc <;> simp only [WriterPc.agrees] at h ⊢ <;> rw [hh, hm] <;> exact h

theorem Inv_stepReader (old built : Hosts) (i : Nat) (s t : Sys) (hinv : s.Inv old built)
    (hstep : stepReader i s = some t) : t.Inv old built := by
  obtain ⟨hw, hcount, hexcl, hobs⟩ := hinv
  unfold stepReader at hstep
  split at hstep
  · rename_i hget
    split at hstep
    · rename_i hguard
      simp only [Option.some.injEq] at hstep
      subst hstep
      have hc := countP_set ReaderPc.holding s.readers i ReaderPc.start ReaderPc.locked hget
      simp only [ReaderPc.holding] at hc
      refine ⟨agrees_congr old built s _ s.writer rfl rfl hw, ?_, ?_, ?_⟩
      · show s.mutex.readers + 1 =
          List.countP ReaderPc.holding (s.readers.set i ReaderPc.locked)
        simp at hc
        omega
      · intro h
        have h2 : s.mutex.writer = true := h
        rw [hguard] at h2
        exact absurd h2 (by simp)
      · intro pc hpc obs hseen
        rcases List.mem_or_eq_of_mem_set hpc with hmem | heq
        · exact hobs pc hmem obs hseen
        · rw [heq] at hseen
          simp [ReaderPc.observed] at hseen
    · exact absurd hstep (by simp)
  · rename_i hget
    simp only [Option.some.injEq] at hstep
    subst hstep
    have hc := countP_set ReaderPc.holding s.readers i ReaderPc.locked
      (ReaderPc.looked s.hosts) hget
    simp only [ReaderPc.holding] at hc
    have hpos := countP_pos_of_get ReaderPc.holding s.readers i ReaderPc.locked hget rfl
    refine ⟨agrees_congr old built s _ s.writer rfl rfl hw, ?_, hexcl, ?_⟩
    · show s.mutex.readers =
        List.countP ReaderPc.holding (s.readers.set i (ReaderPc.looked s.hosts))
      simp at hc
      omega
    · intro pc hpc obs hseen
      rcases List.mem_or_eq_of_mem_set hpc with hmem | heq
      · exact hobs pc hmem obs hseen
      · rw [heq] at hseen
        simp only [ReaderPc.observed, Option.some.injEq] at hseen
        subst hseen
        have hfree : s.mutex.writer = false := by
          cases hwr : s.mutex.writer with
          | false => rfl
          | true =>
            have := hexcl hwr
            omega
        cases hpc2 : s.writer with
        | building =>
          rw [hpc2] at hw
          exact Or.inl hw.1
        | clearing todo =>
          rw [hpc2] at hw
          have h1 : s.mutex.writer = true := hw.1
          rw [hfree] at h1
          exact absurd h1 (by simp)
        | copying todo =>
          rw [hpc2] at hw
          have h1 : s.mutex.writer = true := hw.1
          rw [hfree] at h1
          exact absurd h1 (by simp)
        | done =>
          rw [hpc2] at hw
          exact Or.inr hw.1
  · rename_i seen hget
    simp only [Option.some.injEq] at hstep
    subst hstep
    have hc := countP_set ReaderPc.holding s.readers i (ReaderPc.looked seen)
      (ReaderPc.done seen) hget
    simp only [ReaderPc.holding] at hc
    refine ⟨agrees_congr old built s _ s.writer rfl rfl hw, ?_, ?_, ?_⟩
    · show s.mutex.readers - 1 =
        List.countP ReaderPc.holding (s.readers.set i (ReaderPc.done seen))
      have hpos := countP_pos_of_get ReaderPc.holding s.readers i (ReaderPc.looked seen)
        hget rfl
      simp at hc
      omega
    · intro h
      show s.mutex.readers - 1 = 0
      have := hexcl h
      omega
    · intro pc hpc obs hseen
      rcases List.mem_or_eq_of_mem_set hpc with hmem | heq
      · exact hobs pc hmem obs hseen
      · rw [heq] at hseen
        exact hobs (ReaderPc.looked seen) (List.get?_mem hget) obs hseen
  · exact absurd hstep (by simp)
  · exact absurd hstep (by simp)

theorem Inv_run (old built : Hosts) (sched : List Action) (s t : Sys)
    (hinv : s.Inv old built) (hrun : run built s sched = some t) : t.Inv old built := by
  induction sched generalizing s with
  | nil =>
    simp only [run, Option.some.injEq] at hrun
    subst hrun
    exact hinv
  | cons a rest ih =>
    unfold run at hrun
    split at hrun
    · rename_i u hstep
      apply ih u _ hrun
      cases a with
      | writer => exact Inv_stepWriter old built s u hinv hstep
      | reader i => exact Inv_stepReader old built i s u hinv hstep
    · exact absurd hrun (by simp)

theorem get_eq_some_iff_mem (m : Hosts) (hn : m.keys.Nodup) (n : String) (v : NodeAddr) :
    m.get n = some v ↔ (n, v) ∈ m := by
  induction m with
  | nil => simp [Hosts.get]
  | cons e rest ih =>
    obtain ⟨a, w⟩ := e
    have hn2 : a ∉ Hosts.keys rest ∧ (Hosts.keys rest).Nodup := by
      simpa [Hosts.keys] using hn
    by_cases han : a = n
    · subst han
      have hnot : (a, v) ∉ rest := fun hmem =>
        hn2.1 (List.mem_map_of_mem Prod.fst hmem)
      simp only [Hosts.get, if_true, Option.some.injEq, List.mem_cons, Prod.mk.injEq,
        true_and, hnot, or_false]
      exact eq_comm
    · have hne : ¬ n = a := fun h => han h.symm
      simp only [Hosts.get, han, if_false, List.mem_cons, Prod.mk.injEq, hne, false_and,
        false_or]
      exact ih hn2.2

/-- Two orders of visiting the same map read alike. -/
theorem get_perm (a b : Hosts) (hp : a.Perm b) (hn : b.keys.Nodup) (n : String) :
    a.get n = b.get n := by
  have hna : a.keys.Nodup := ((hp.map Prod.fst).nodup_iff).mpr hn
  apply Option.ext
  intro v
  show a.get n = some v ↔ b.get n = some v
  rw [get_eq_some_iff_mem a hna, get_eq_some_iff_mem b hn]
  exact hp.mem_iff

/-- C10. Lookups racing one successful refresh, under every schedule of their
lock operations, map reads and map writes that the `RWMutex` admits, and for
every order in which the refresh visits the entries of its freshly built map:
the table a lookup reads is, as a whole, either the previous generation or the
table the refresh installs, whose entries are those of the freshly built map;
a cleared or half-refilled table is never read. Once the refresh has returned,
the table is the new generation. -/
theorem lookups_see_whole_generation (env : Env) (k : K8SNode) (items : List Node)
    (order old : Hosts) (n : Nat) (sched : List Action) (s : Sys)
    (horder : order.Perm (buildHosts env k items))
    (hrun : run order (Sys.init old n) sched = some s) :
    (∀ pc ∈ s.readers, ∀ obs, pc.observed = some obs →
        obs = old ∨
        (obs = install order old ∧
          ∀ name, obs.get name = (buildHosts env k items).get name)) ∧
      (s.writer = WriterPc.done →
        s.hosts = install order old ∧
          ∀ name, s.hosts.get name = (buildHosts env k items).get name) := by
  have hinv := Inv_run old order sched (Sys.init old n) s (Inv_init old order n) hrun
  obtain ⟨hw, _, _, hobs⟩ := hinv
  have hnodup : order.keys.Nodup :=
    ((horder.map Prod.fst).nodup_iff).mpr (buildHosts_keys_nodup env k items)
  have hnew : ∀ name, (install order old).get name = (buildHosts env k items).get name := by
    intro name
    rw [get_install order old hnodup name]
    exact get_perm order _ horder (buildHosts_keys_nodup env k items) name
  constructor
  · intro pc hpc obs hseen
    rcases hobs pc hpc obs hseen with h | h
    · exact Or.inl h
    · refine Or.inr ⟨h, fun name => ?_⟩
      rw [h]
      exact hnew name
  · intro hdone
    rw [hdone] at hw
    refine ⟨hw.1, fun name => ?_⟩
    rw [hw.1]
    exact hnew name

/-- Witness for C10: the first lookup reads before the refresh takes the lock
and sees the previous generation, the second reads after the refresh released
it and sees the new one. -/
theorem lookups_see_whole_generation_witness :
    run [("node1.cluster.local.", { Address := ip10_0_0_5, Ipv6 := false })]
        (Sys.init [("stale.cluster.local.", { Address := ipfd00__5, Ipv6 := true })] 2)
        [Action.reader 0, Action.reader 0, Action.reader 0, Action.writer, Action.writer,
         Action.writer, Action.writer, Action.writer, Action.reader 1, Action.reader 1,
         Action.reader 1] =
      some
        { mutex := { writer := false, readers := 0 },
          hosts := [("node1.cluster.local.", { Address := ip10_0_0_5, Ipv6 := false })],
          writer := WriterPc.done,
          readers :=
            [ReaderPc.done [("stale.cluster.local.", { Address := ipfd00__5, Ipv6 := true })],
             ReaderPc.done
               [("node1.cluster.local.", { Address := ip10_0_0_5, Ipv6 := false })]] } ∧
      ([("node1.cluster.local.", ({ Address := ip10_0_0_5, Ipv6 := false } : NodeAddr))] =
          [("stale.cluster.local.", { Address := ipfd00__5, Ipv6 := true })] ∨
        ([("node1.cluster.local.", ({ Address := ip10_0_0_5, Ipv6 := false } : NodeAddr))] =
            install [("node1.cluster.local.", { Address := ip10_0_0_5, Ipv6 := false })]
              [("stale.cluster.local.", { Address := ipfd00__5, Ipv6 := true })] ∧
          ∀ name,
            Hosts.get [("node1.cluster.local.", { Address := ip10_0_0_5, Ipv6 := false })] name =
              (buildHosts (sampleEnv [node "node1" "10.0.0.5"]) sampleNode
                [node "node1" "10.0.0.5"]).get name)) :=
  ⟨by decide,
    (lookups_see_whole_generation (sampleEnv [node "node1" "10.0.0.5"]) sampleNode
      [node "node1" "10.0.0.5"]
      [("node1.cluster.local.", { Address := ip10_0_0_5, Ipv6 := false })]
      [("stale.cluster.local.", { Address := ipfd00__5, Ipv6 := true })] 2
      [Action.reader 0, Action.reader 0, Action.reader 0, Action.writer, Action.writer,
       Action.writer, Action.writer, Action.writer, Action.reader 1, Action.reader 1,
       Action.reader 1]
      { mutex := { writer := false, readers := 0 },
        hosts := [("node1.cluster.local.", { Address := ip10_0_0_5, Ipv6 := false })],
        writer := WriterPc.done,
        readers :=
          [ReaderPc.done [("stale.cluster.local.", { Address := ipfd00__5, Ipv6 := true })],
           ReaderPc.done
             [("node1.cluster.local.", { Address := ip10_0_0_5, Ipv6 := false })]] }
      (by
        have hb : buildHosts (sampleEnv [node "node1" "10.0.0.5"]) sampleNode
            [node "node1" "10.0.0.5"] =
            [("node1.cluster.local.", { Address := ip10_0_0_5, Ipv6 := false })] := by decide
        rw [hb])
      (by decide)).1
      (ReaderPc.done [("node1.cluster.local.", { Address := ip10_0_0_5, Ipv6 := false })])
      (by simp)
      [("node1.cluster.local.", { Address := ip10_0_0_5, Ipv6 := false })] rfl⟩

/-- While the refresh is inside its critical section, here after it cleared
the table, a lookup cannot take the read lock: the schedule that asks it to is
not a run of the machine. -/
theorem reader_blocked_in_critical_section :
    run (buildHosts (sampleEnv [node "node1" "10.0.0.5"]) sampleNode [node "node1" "10.0.0.5"])
        (Sys.init [("stale.cluster.local.", { Address := ipfd00__5, Ipv6 := true })] 1)
        [Action.writer, Action.writer, Action.reader 0] = none := by
  decide

/-- A reader that holds the read lock keeps the refresh out: the schedule that
asks the refresh to take the lock meanwhile is not a run of the machine. -/
theorem writer_blocked_by_reader :
    run (buildHosts (sampleEnv [node "node1" "10.0.0.5"]) sampleNode [node "node1" "10.0.0.5"])
        (Sys.init [("stale.cluster.local.", { Address := ipfd00__5, Ipv6 := true })] 1)
        [Action.reader 0, Action.writer] = none := by
  decide

end K8sNode
